import Mathlib

/-!
A shallow embedding of the `lease` package's DynamoDB-backed lease manager
(`LeaseManager`) and of its `Lease` record type.

The DynamoDB lease table is modelled as an association list from the
`leaseKey` attribute to the other stored attributes (`leaseOwner`,
`leaseCounter`).  Conditional writes are modelled by evaluating the
condition expression that the code builds against the stored item.
Transient client errors are modelled by a `List Bool` oracle consumed one
entry per physical store call; the retry loops follow the code's
`for Backoff.Attempt() < max` loops, with the backoff attempt counter
starting at 0 and advancing by one on each failed call.  Go's 64-bit `int`
increment is modelled by `wrap64`.
-/

/-- Go 64-bit two's-complement wraparound of an integer, as performed by
an overflowing `int` increment. -/
def wrap64 (x : Int) : Int := (x + 2 ^ 63) % 2 ^ 64 - 2 ^ 63

/-- One stored DynamoDB item of the lease table, apart from its `leaseKey`
attribute (which is the key of the table map): the optional `leaseOwner`
and `leaseCounter` attributes. -/
structure Record where
  owner : Option String
  counter : Option Int
deriving Repr, DecidableEq

/-- The lease table: an association list from `leaseKey` to stored item
(DynamoDB keeps at most one item per key; the list is read through
`lookupA`, which returns the first binding). -/
abbrev Store : Type := List (String × Record)

/-- Association-list lookup by key (first binding wins). -/
def lookupA {β : Type} (k : String) : List (String × β) → Option β
  | [] => none
  | p :: rest => if p.1 = k then some p.2 else lookupA k rest

/-- Association-list overwrite-or-append: a Go map assignment, or a
DynamoDB write of the item under one key. -/
def setAssoc {β : Type} (k : String) (v : β) : List (String × β) → List (String × β)
  | [] => [(k, v)]
  | p :: rest => if p.1 = k then (k, v) :: rest else p :: setAssoc k v rest

/-- Association-list removal of a key (DynamoDB DeleteItem). -/
def removeA {β : Type} (k : String) : List (String × β) → List (String × β)
  | [] => []
  | p :: rest => if p.1 = k then rest else p :: removeA k rest

/-- The `Lease` struct: the persisted `Key`, `Owner`, `Counter` fields plus
the non-persisted control fields (`lastRenewal`, `concurrencyToken`,
`extrafields`).  `α` is the type of the caller-defined extra values. -/
structure Lease (α : Type) where
  Key : String
  Owner : String
  Counter : Int
  lastRenewal : Nat
  concurrencyToken : String
  extrafields : Option (List (String × α))
deriving Repr, DecidableEq

/-- `NewLease` returns a Lease with only the key set; every other field is
its Go zero value. -/
def NewLease {α : Type} (k : String) : Lease α := ⟨k, "", 0, 0, "", none⟩

/-- `Lease.Set`: write an extra field, allocating the map on first use. -/
def Lease.Set {α : Type} (l : Lease α) (k : String) (v : α) : Lease α :=
  match l.extrafields with
  | none => { l with extrafields := some [(k, v)] }
  | some m => { l with extrafields := some (setAssoc k v m) }

/-- `Lease.Get`: read an extra field, returning the value and the comma-ok
flag of the Go map read. -/
def Lease.Get {α : Type} (l : Lease α) (k : String) : Option α × Bool :=
  match l.extrafields with
  | none => (none, false)
  | some m => (lookupA k m, (lookupA k m).isSome)

/-- The errors a store call can report back to the manager. -/
inductive StoreErr where
  | conditionalCheckFailed
  | transient
deriving Repr, DecidableEq

/-- The ConditionExpression that `updateLease` assembles as a string:
equality of the stored counter with a literal, equality of the stored
owner with a literal, or a conjunction. -/
inductive CondExpr where
  | counterEq (n : Int)
  | ownerEq (s : String)
  | and (a b : CondExpr)
deriving Repr, DecidableEq

/-- Mirrors the condition building of `updateLease`: a counter-equality
conjunct iff the conditioning lease has `Counter > 0`, an owner-equality
conjunct iff it has a non-empty `Owner`, conjoined in that order when both
are present, and no condition at all when neither is. -/
def buildCond {α : Type} (c : Lease α) : Option CondExpr :=
  let cc : Option CondExpr :=
    if 0 < c.Counter then some (CondExpr.counterEq c.Counter) else none
  if c.Owner = "" then cc
  else
    match cc with
    | none => some (CondExpr.ownerEq c.Owner)
    | some e => some (CondExpr.and e (CondExpr.ownerEq c.Owner))

/-- Evaluate a condition expression against the stored item under the key
(`none` when the item is absent): as in DynamoDB, an equality test against
a missing attribute or a missing item is false. -/
def evalCond (r : Option Record) : CondExpr → Bool
  | CondExpr.counterEq n =>
    match r with
    | some q => decide (q.counter = some n)
    | none => false
  | CondExpr.ownerEq s =>
    match r with
    | some q => decide (q.owner = some s)
    | none => false
  | CondExpr.and a b => evalCond r a && evalCond r b

/-- An absent ConditionExpression lets the write through unconditionally. -/
def evalCondOpt (r : Option Record) : Option CondExpr → Bool
  | none => true
  | some e => evalCond r e

/-- Per-operation retry caps, from the source constants. -/
def maxScanRetries : Nat := 3

/-- Retry cap of `CreateLeaseTable`. -/
def maxCreateRetries : Nat := 3

/-- Retry cap of `updateLease`. -/
def maxUpdateRetries : Nat := 2

/-- Retry cap of `DeleteLease`. -/
def maxDeleteRetries : Nat := 2

/-- One `UpdateItem` call: evaluate the condition built from `c` against
the stored item under `u.Key`; on success SET `leaseOwner := u.Owner` and
`leaseCounter := u.Counter` (creating the item when absent), otherwise
report `conditionalCheckFailed` and leave the table unchanged. -/
def updateItem {α : Type} (u c : Lease α) (st : Store) : Option StoreErr × Store :=
  if evalCondOpt (lookupA u.Key st) (buildCond c) then
    (none, setAssoc u.Key ⟨some u.Owner, some u.Counter⟩ st)
  else (some StoreErr.conditionalCheckFailed, st)

/-- The `for Backoff.Attempt() < maxUpdateRetries` loop of `updateLease`:
each iteration makes one `UpdateItem` call (a transient fault when the
oracle says so), breaks on success, and otherwise backs off and retries,
returning the last error when the attempts run out.  The returned `Nat`
counts the physical calls made. -/
def updateLoop {α : Type} (u c : Lease α) :
    Nat → List Bool → Store → Option StoreErr → Option StoreErr × Store × Nat
  | 0, _, st, last => (last, st, 0)
  | n + 1, faults, st, _ =>
    if faults.headD false then
      let r := updateLoop u c n faults.tail st (some StoreErr.transient)
      (r.1, r.2.1, r.2.2 + 1)
    else
      match updateItem u c st with
      | (none, st1) => (none, st1, 1)
      | (some e, st1) =>
        let r := updateLoop u c n faults.tail st1 (some e)
        (r.1, r.2.1, r.2.2 + 1)

/-- `updateLease(update, cond)`: the conditional write shared by renew,
take and evict, with its bounded retry loop. -/
def updateLease {α : Type} (u c : Lease α) (faults : List Bool) (st : Store) :
    Option StoreErr × Store × Nat :=
  updateLoop u c maxUpdateRetries faults st none

/-- Result of a manager operation that takes a `*Lease`: the returned
error, the (possibly mutated in place) lease, the table after the call,
and the number of physical store calls made. -/
structure LeaseOp (α : Type) where
  err : Option StoreErr
  lease : Lease α
  store : Store
  calls : Nat
deriving Repr, DecidableEq

/-- `RenewLease`: copy the lease, increment the copy's counter, issue the
conditional write conditioned on the original, and on success write the
new counter back into the caller's lease. -/
def RenewLease {α : Type} (l : Lease α) (faults : List Bool) (st : Store) : LeaseOp α :=
  let cl := { l with Counter := wrap64 (l.Counter + 1) }
  match updateLease cl l faults st with
  | (none, st1, n) => ⟨none, { l with Counter := cl.Counter }, st1, n⟩
  | (some e, st1, n) => ⟨some e, l, st1, n⟩

/-- `EvictLease`: copy the lease, set the copy's owner to the sentinel
NULL, issue the conditional write conditioned on the original, and on
success write the owner back into the caller's lease. -/
def EvictLease {α : Type} (l : Lease α) (faults : List Bool) (st : Store) : LeaseOp α :=
  let cl := { l with Owner := "NULL" }
  match updateLease cl l faults st with
  | (none, st1, n) => ⟨none, { l with Owner := cl.Owner }, st1, n⟩
  | (some e, st1, n) => ⟨some e, l, st1, n⟩

/-- `TakeLease`: copy the lease, increment the copy's counter and set its
owner to this worker's id, issue the conditional write conditioned on the
original, and on success write both fields back into the caller's lease. -/
def TakeLease {α : Type} (w : String) (l : Lease α) (faults : List Bool) (st : Store) :
    LeaseOp α :=
  let cl := { l with Counter := wrap64 (l.Counter + 1), Owner := w }
  match updateLease cl l faults st with
  | (none, st1, n) => ⟨none, { l with Owner := cl.Owner, Counter := cl.Counter }, st1, n⟩
  | (some e, st1, n) => ⟨some e, l, st1, n⟩

/-- The ConditionExpression of `DeleteLease`:
`attribute_not_exists(leaseKey) OR :condCounter = leaseCounter AND
:condOwner = leaseOwner`, with AND binding tighter than OR. -/
def deleteCond {α : Type} (l : Lease α) : Option Record → Bool
  | none => true
  | some q => decide (q.counter = some l.Counter) && decide (q.owner = some l.Owner)

/-- One `DeleteItem` call: on a passing condition remove the item, else
report `conditionalCheckFailed` and leave the table unchanged. -/
def deleteItem {α : Type} (l : Lease α) (st : Store) : Option StoreErr × Store :=
  if deleteCond l (lookupA l.Key st) then (none, removeA l.Key st)
  else (some StoreErr.conditionalCheckFailed, st)

/-- The retry loop of `DeleteLease`, shaped like `updateLoop`. -/
def deleteLoop {α : Type} (l : Lease α) :
    Nat → List Bool → Store → Option StoreErr → Option StoreErr × Store × Nat
  | 0, _, st, last => (last, st, 0)
  | n + 1, faults, st, _ =>
    if faults.headD false then
      let r := deleteLoop l n faults.tail st (some StoreErr.transient)
      (r.1, r.2.1, r.2.2 + 1)
    else
      match deleteItem l st with
      | (none, st1) => (none, st1, 1)
      | (some e, st1) =>
        let r := deleteLoop l n faults.tail st1 (some e)
        (r.1, r.2.1, r.2.2 + 1)

/-- `DeleteLease`: the conditional delete with its bounded retry loop. -/
def DeleteLease {α : Type} (l : Lease α) (faults : List Bool) (st : Store) :
    Option StoreErr × Store × Nat :=
  deleteLoop l maxDeleteRetries faults st none

/-- `CreateLease`: a single unconditional `PutItem` of an item carrying
only the `leaseKey` attribute (the commented-out non-existence condition
is absent from the built request), with no retry loop around it. -/
def CreateLease {α : Type} (l : Lease α) (faults : List Bool) (st : Store) :
    Option StoreErr × Store × Nat :=
  if faults.headD false then (some StoreErr.transient, st, 1)
  else (none, setAssoc l.Key ⟨none, none⟩ st, 1)

/-- `dynamodbattribute.UnmarshalMap` of one scanned item into a fresh
`Lease`, followed by the code's stamping of `lastRenewal` with
`time.Now()`: a missing attribute unmarshals to the Go zero value, and the
unexported fields are left at their zero values. -/
def unmarshalItem (α : Type) (t : Nat) (p : String × Record) : Lease α :=
  ⟨p.1, p.2.owner.getD (""), p.2.counter.getD 0, t, "", none⟩

/-- The `Scan` retry loop of `ListLeases`: on a clean call return every
stored item unmarshalled (breaking out of the loop), on a transient fault
back off and retry, returning the last error and no list when the
attempts run out. -/
def listLoop (α : Type) (t : Nat) :
    Nat → List Bool → Store → Option StoreErr → Option StoreErr × List (Lease α) × Nat
  | 0, _, _, last => (last, [], 0)
  | n + 1, faults, st, _ =>
    if faults.headD false then
      let r := listLoop α t n faults.tail st (some StoreErr.transient)
      (r.1, r.2.1, r.2.2 + 1)
    else
      (none, st.map (unmarshalItem α t), 1)

/-- `ListLeases`: full scan with its bounded retry loop; `t` is the
current time used to stamp each returned lease. -/
def ListLeases (α : Type) (t : Nat) (faults : List Bool) (st : Store) :
    Option StoreErr × List (Lease α) × Nat :=
  listLoop α t maxScanRetries faults st none

/-- A reply of the `CreateTable` client call: success, the
ResourceInUseException that the code folds into success, or a transient
failure. -/
inductive TblReply where
  | ok
  | resourceInUse
  | transientErr
deriving Repr, DecidableEq

/-- The retry loop of `CreateLeaseTable`: success and ResourceInUse both
break with a nil error; a transient failure backs off and retries. -/
def createTableLoop : Nat → List TblReply → Option StoreErr → Option StoreErr × Nat
  | 0, _, last => (last, 0)
  | n + 1, replies, _ =>
    match replies.headD TblReply.ok with
    | TblReply.ok => (none, 1)
    | TblReply.resourceInUse => (none, 1)
    | TblReply.transientErr =>
      let r := createTableLoop n replies.tail (some StoreErr.transient)
      (r.1, r.2 + 1)

/-- `CreateLeaseTable`: ensure the table exists, with its bounded retry
loop; `replies` gives the client's answer to each successive call. -/
def CreateLeaseTable (replies : List TblReply) : Option StoreErr × Nat :=
  createTableLoop maxCreateRetries replies none

/-- Whether a condition expression contains a counter-equality conjunct. -/
def CondExpr.mentionsCounter : CondExpr → Bool
  | CondExpr.counterEq _ => true
  | CondExpr.ownerEq _ => false
  | CondExpr.and a b => a.mentionsCounter || b.mentionsCounter

/-- Whether a condition expression contains an owner-equality conjunct. -/
def CondExpr.mentionsOwner : CondExpr → Bool
  | CondExpr.counterEq _ => false
  | CondExpr.ownerEq _ => true
  | CondExpr.and a b => a.mentionsOwner || b.mentionsOwner

/-- Whether the optional condition attached to a write contains a
counter-equality conjunct. -/
def condMentionsCounter : Option CondExpr → Bool
  | none => false
  | some e => e.mentionsCounter

/-- Whether the optional condition attached to a write contains an
owner-equality conjunct. -/
def condMentionsOwner : Option CondExpr → Bool
  | none => false
  | some e => e.mentionsOwner

/-- Looking a key up right after setting it yields the set value. -/
theorem lookupA_setAssoc {β : Type} (k : String) (v : β) (l : List (String × β)) :
    lookupA k (setAssoc k v l) = some v := by
  induction l with
  | nil => simp [setAssoc, lookupA]
  | cons p rest ih =>
    by_cases h : p.1 = k
    · simp [setAssoc, lookupA, h]
    · simp [setAssoc, lookupA, h, ih]

/-- `wrap64` is the identity on integers in the 64-bit signed range. -/
theorem wrap64_eq (x : Int) (h1 : -(2 ^ 63) ≤ x) (h2 : x < 2 ^ 63) : wrap64 x = x := by
  have e1 : (2 : Int) ^ 63 = 9223372036854775808 := by norm_num
  have e2 : (2 : Int) ^ 64 = 18446744073709551616 := by norm_num
  unfold wrap64
  rw [e1, e2]
  rw [e1] at h1 h2
  omega

/-- With no transient faults, a passing condition makes `updateLease`
succeed on its first call and write the update. -/
theorem updateLease_nil_of_true {α : Type} (u c : Lease α) (st : Store)
    (h : evalCondOpt (lookupA u.Key st) (buildCond c) = true) :
    updateLease u c [] st = (none, setAssoc u.Key ⟨some u.Owner, some u.Counter⟩ st, 1) := by
  simp [updateLease, maxUpdateRetries, updateLoop, updateItem, h]

/-- With no transient faults, a failing condition makes `updateLease`
report the conditional-check failure after exhausting both attempts,
leaving the table unchanged. -/
theorem updateLease_nil_of_false {α : Type} (u c : Lease α) (st : Store)
    (h : evalCondOpt (lookupA u.Key st) (buildCond c) = false) :
    updateLease u c [] st = (some StoreErr.conditionalCheckFailed, st, 2) := by
  simp [updateLease, maxUpdateRetries, updateLoop, updateItem, h]

/-- With no transient faults, a passing condition makes `DeleteLease`
remove the item on its first call. -/
theorem deleteLease_nil_of_true {α : Type} (l : Lease α) (st : Store)
    (h : deleteCond l (lookupA l.Key st) = true) :
    DeleteLease l [] st = (none, removeA l.Key st, 1) := by
  simp [DeleteLease, maxDeleteRetries, deleteLoop, deleteItem, h]

/-- With no transient faults, a failing condition makes `DeleteLease`
report the conditional-check failure after exhausting both attempts,
leaving the table unchanged. -/
theorem deleteLease_nil_of_false {α : Type} (l : Lease α) (st : Store)
    (h : deleteCond l (lookupA l.Key st) = false) :
    DeleteLease l [] st = (some StoreErr.conditionalCheckFailed, st, 2) := by
  simp [DeleteLease, maxDeleteRetries, deleteLoop, deleteItem, h]

/-- A lease with a positive counter always contributes a counter-equality
conjunct, alone or conjoined with the owner check. -/
theorem buildCond_pos {α : Type} (c : Lease α) (h0 : 0 < c.Counter) :
    buildCond c = some (CondExpr.counterEq c.Counter) ∨
      buildCond c = some (CondExpr.and (CondExpr.counterEq c.Counter)
        (CondExpr.ownerEq c.Owner)) := by
  unfold buildCond
  by_cases ho : c.Owner = ("") <;> simp [h0, ho]

/-- When the condition of a positive-counter lease passes against a stored
item, the stored counter equals the lease's counter. -/
theorem evalCond_pos_true {α : Type} (c : Lease α) (q : Record) (h0 : 0 < c.Counter)
    (h : evalCondOpt (some q) (buildCond c) = true) : q.counter = some c.Counter := by
  rcases buildCond_pos c h0 with hb | hb
  · simpa [evalCondOpt, hb, evalCond] using h
  · rw [hb] at h
    simp [evalCondOpt, evalCond] at h
    exact h.1

/-- When the stored counter differs from a positive lease counter, the
built condition fails. -/
theorem evalCond_pos_false {α : Type} (c : Lease α) (q : Record) (h0 : 0 < c.Counter)
    (hne : q.counter ≠ some c.Counter) :
    evalCondOpt (some q) (buildCond c) = false := by
  rcases buildCond_pos c h0 with hb | hb <;> simp [evalCondOpt, hb, evalCond, hne]

/-- The delete condition passes exactly on an absent item or on matching
owner and counter. -/
theorem deleteCond_iff {α : Type} (l : Lease α) (r : Option Record) :
    deleteCond l r = true ↔
      (match r with
       | none => True
       | some q => q.owner = some l.Owner ∧ q.counter = some l.Counter) := by
  cases r <;> simp [deleteCond, and_comm]

/-- C1 counterexample: the store holds key A with owner w1 and counter 5;
`CreateLease` on that key returns success, but the stored item is replaced
by a key-only item whose owner and counter attributes are gone, so the
stored counter and owner are not left unchanged. -/
theorem createLease_existing_overwrites_cex :
    lookupA "A" [("A", (⟨some ("w1"), some (5 : Int)⟩ : Record))]
      = some ⟨some ("w1"), some (5 : Int)⟩ ∧
    (CreateLease (NewLease ("A") : Lease Unit) []
        [("A", ⟨some ("w1"), some (5 : Int)⟩)]).1 = none ∧
    lookupA "A" (CreateLease (NewLease ("A") : Lease Unit) []
        [("A", ⟨some ("w1"), some (5 : Int)⟩)]).2.1 = some ⟨none, none⟩ ∧
    (⟨none, none⟩ : Record) ≠ ⟨some ("w1"), some (5 : Int)⟩ := by decide

/-- C1 amended: absent transient faults, `CreateLease` succeeds on every
key, present or not, and afterwards the stored item under that key is the
key-only item: its owner and counter attributes are cleared rather than
preserved (DynamoDB PutItem replaces the whole item). -/
theorem createLease_puts_key_only {α : Type} (l : Lease α) (st : Store) :
    (CreateLease l [] st).1 = none ∧
    (CreateLease l [] st).2.1 = setAssoc l.Key ⟨none, none⟩ st ∧
    lookupA l.Key (CreateLease l [] st).2.1 = some ⟨none, none⟩ := by
  refine ⟨?_, ?_, ?_⟩ <;> simp [CreateLease, lookupA_setAssoc]

/-- C2 counterexample: a renew whose counter condition fails (stored
counter 5, lease counter 3) makes two physical UpdateItem calls before the
conditional-check failure is returned, so the failed conditional write is
retried rather than returned after a single attempt. -/
theorem condFail_retried_cex :
    RenewLease (⟨"A", "w1", 3, 0, "", none⟩ : Lease Unit) []
        [("A", ⟨some ("w1"), some (5 : Int)⟩)]
      = ⟨some StoreErr.conditionalCheckFailed, ⟨"A", "w1", 3, 0, "", none⟩,
          [("A", ⟨some ("w1"), some (5 : Int)⟩)], 2⟩ := by decide

/-- C2 amended: a conditional-check failure is still surfaced to the
caller as the operation's outcome and leaves the store unchanged, but the
write is first retried up to the per-operation cap (2 attempts for the
update and delete loops), not returned after a single attempt. -/
theorem condFail_surfaced_after_retries {α : Type} (u c l : Lease α) (st : Store)
    (h1 : evalCondOpt (lookupA u.Key st) (buildCond c) = false)
    (h2 : deleteCond l (lookupA l.Key st) = false) :
    updateLease u c [] st = (some StoreErr.conditionalCheckFailed, st, maxUpdateRetries) ∧
    DeleteLease l [] st = (some StoreErr.conditionalCheckFailed, st, maxDeleteRetries) :=
  ⟨updateLease_nil_of_false u c st h1, deleteLease_nil_of_false l st h2⟩

/-- C2 witness: the amended statement at a concrete stale lease and
store. -/
theorem condFail_surfaced_after_retries_w :
    updateLease (⟨"A", "w1", 3, 0, "", none⟩ : Lease Unit) ⟨"A", "w1", 3, 0, "", none⟩ []
        [("A", ⟨some ("w1"), some (5 : Int)⟩)]
      = (some StoreErr.conditionalCheckFailed,
          [("A", ⟨some ("w1"), some (5 : Int)⟩)], maxUpdateRetries) ∧
    DeleteLease (⟨"A", "w1", 3, 0, "", none⟩ : Lease Unit) []
        [("A", ⟨some ("w1"), some (5 : Int)⟩)]
      = (some StoreErr.conditionalCheckFailed,
          [("A", ⟨some ("w1"), some (5 : Int)⟩)], maxDeleteRetries) :=
  condFail_surfaced_after_retries ⟨"A", "w1", 3, 0, "", none⟩ ⟨"A", "w1", 3, 0, "", none⟩
    ⟨"A", "w1", 3, 0, "", none⟩ [("A", ⟨some ("w1"), some (5 : Int)⟩)]
    (by decide) (by decide)

/-- C3 counterexample: the lease's counter 0 is stale with respect to the
stored counter 5, yet `RenewLease` succeeds (a counter-0 lease carries no
counter predicate): it mutates the stored record (owner and counter are
overwritten, the counter regressing to 1) and the passed-in lease's
counter. -/
theorem stale_zero_counter_renew_succeeds_cex :
    RenewLease (⟨"A", "", 0, 0, "", none⟩ : Lease Unit) []
        [("A", ⟨some ("w1"), some (5 : Int)⟩)]
      = ⟨none, ⟨"A", "", 1, 0, "", none⟩,
          [("A", ⟨some (""), some (1 : Int)⟩)], 1⟩ := by decide

/-- C3 amended: for a lease with a positive counter that differs from the
stored counter, `RenewLease` and `TakeLease` return a conditional-check
failure and mutate neither the stored table nor the passed-in lease. -/
theorem stale_positive_counter_cond_fails {α : Type} (w : String) (l : Lease α)
    (st : Store) (q : Record)
    (hlook : lookupA l.Key st = some q)
    (h0 : 0 < l.Counter)
    (hne : q.counter ≠ some l.Counter) :
    RenewLease l [] st = ⟨some StoreErr.conditionalCheckFailed, l, st, 2⟩ ∧
    TakeLease w l [] st = ⟨some StoreErr.conditionalCheckFailed, l, st, 2⟩ := by
  have hf : evalCondOpt (lookupA l.Key st) (buildCond l) = false := by
    rw [hlook]
    exact evalCond_pos_false l q h0 hne
  constructor
  · have hu := updateLease_nil_of_false { l with Counter := wrap64 (l.Counter + 1) } l st
      (by simpa using hf)
    simp [RenewLease, hu]
  · have hu := updateLease_nil_of_false
      { l with Counter := wrap64 (l.Counter + 1), Owner := w } l st (by simpa using hf)
    simp [TakeLease, hu]

/-- C3 witness: the amended statement at a concrete stale lease and
store. -/
theorem stale_positive_counter_cond_fails_w :
    RenewLease (⟨"A", "w1", 3, 0, "", none⟩ : Lease Unit) []
        [("A", ⟨some ("w1"), some (5 : Int)⟩)]
      = ⟨some StoreErr.conditionalCheckFailed, ⟨"A", "w1", 3, 0, "", none⟩,
          [("A", ⟨some ("w1"), some (5 : Int)⟩)], 2⟩ ∧
    TakeLease "w2" (⟨"A", "w1", 3, 0, "", none⟩ : Lease Unit) []
        [("A", ⟨some ("w1"), some (5 : Int)⟩)]
      = ⟨some StoreErr.conditionalCheckFailed, ⟨"A", "w1", 3, 0, "", none⟩,
          [("A", ⟨some ("w1"), some (5 : Int)⟩)], 2⟩ :=
  stale_positive_counter_cond_fails "w2" ⟨"A", "w1", 3, 0, "", none⟩
    [("A", ⟨some ("w1"), some (5 : Int)⟩)] ⟨some ("w1"), some (5 : Int)⟩
    (by decide) (by decide) (by decide)

/-- C4: the condition built for renew/take/evict writes contains the
counter-equality check iff the lease's counter is positive and the
owner-equality check iff its owner is non-empty; when both are present
they are conjoined with AND; a freshly created lease (counter 0, empty
owner) yields no condition at all, and its first take succeeds against any
table state, setting both the stored counter and the caller's counter
to 1. -/
theorem cond_predicate_composition {α : Type} (l : Lease α) (w : String) (st : Store) :
    (condMentionsCounter (buildCond l) = true ↔ 0 < l.Counter) ∧
    (condMentionsOwner (buildCond l) = true ↔ l.Owner ≠ ("")) ∧
    (0 < l.Counter → l.Owner ≠ ("") →
      buildCond l = some (CondExpr.and (CondExpr.counterEq l.Counter)
        (CondExpr.ownerEq l.Owner))) ∧
    (l.Counter = 0 → l.Owner = ("") → buildCond l = none) ∧
    (l.Counter = 0 → l.Owner = ("") →
      TakeLease w l [] st = ⟨none, { l with Owner := w, Counter := 1 },
        setAssoc l.Key ⟨some w, some (1 : Int)⟩ st, 1⟩) := by
  refine ⟨?_, ?_, ?_, ?_, ?_⟩
  · by_cases h0 : 0 < l.Counter <;> by_cases ho : l.Owner = ("") <;>
      simp [buildCond, condMentionsCounter, CondExpr.mentionsCounter, h0, ho]
  · by_cases h0 : 0 < l.Counter <;> by_cases ho : l.Owner = ("") <;>
      simp [buildCond, condMentionsOwner, CondExpr.mentionsOwner,
        CondExpr.mentionsCounter, h0, ho]
  · intro h0 ho
    simp [buildCond, h0, ho]
  · intro h0 ho
    simp [buildCond, h0, ho]
  · intro h0 ho
    have hb : buildCond l = none := by simp [buildCond, h0, ho]
    have hw : wrap64 (l.Counter + 1) = 1 := by rw [h0]; decide
    have hu := updateLease_nil_of_true
      { l with Counter := wrap64 (l.Counter + 1), Owner := w } l st
      (by simp [hb, evalCondOpt])
    rw [hw] at hu
    simp only [Lease.Key, Lease.Owner, Lease.Counter] at hu
    simp [TakeLease, hw, hu]

/-- C4 witness: the statement at the fresh lease of key A, worker w1 and a
one-item table. -/
theorem cond_predicate_composition_w :
    (condMentionsCounter (buildCond (NewLease ("A") : Lease Unit)) = true ↔
      0 < (NewLease ("A") : Lease Unit).Counter) ∧
    (condMentionsOwner (buildCond (NewLease ("A") : Lease Unit)) = true ↔
      (NewLease ("A") : Lease Unit).Owner ≠ ("")) ∧
    (0 < (NewLease ("A") : Lease Unit).Counter →
      (NewLease ("A") : Lease Unit).Owner ≠ ("") →
      buildCond (NewLease ("A") : Lease Unit)
        = some (CondExpr.and (CondExpr.counterEq (NewLease ("A") : Lease Unit).Counter)
            (CondExpr.ownerEq (NewLease ("A") : Lease Unit).Owner))) ∧
    ((NewLease ("A") : Lease Unit).Counter = 0 →
      (NewLease ("A") : Lease Unit).Owner = ("") →
      buildCond (NewLease ("A") : Lease Unit) = none) ∧
    ((NewLease ("A") : Lease Unit).Counter = 0 →
      (NewLease ("A") : Lease Unit).Owner = ("") →
      TakeLease "w1" (NewLease ("A") : Lease Unit) [] [("B", ⟨some ("w2"), some (7 : Int)⟩)]
        = ⟨none, { (NewLease ("A") : Lease Unit) with Owner := "w1", Counter := 1 },
            setAssoc (NewLease ("A") : Lease Unit).Key ⟨some ("w1"), some (1 : Int)⟩
              [("B", ⟨some ("w2"), some (7 : Int)⟩)], 1⟩) :=
  cond_predicate_composition (NewLease ("A")) "w1" [("B", ⟨some ("w2"), some (7 : Int)⟩)]

/-- C5 counterexample: a lease with counter 0 but matching owner w1
evicts successfully against a stored counter of 5 (the counter
precondition is dropped at counter 0), and the successful evict overwrites
the stored counter from 5 to 0: a successful EvictLease does not always
leave the stored counter unchanged. -/
theorem evict_zero_counter_clobbers_cex :
    lookupA "A" [("A", (⟨some ("w1"), some (5 : Int)⟩ : Record))]
      = some ⟨some ("w1"), some (5 : Int)⟩ ∧
    EvictLease (⟨"A", "w1", 0, 0, "", none⟩ : Lease Unit) []
        [("A", ⟨some ("w1"), some (5 : Int)⟩)]
      = ⟨none, ⟨"A", "NULL", 0, 0, "", none⟩,
          [("A", ⟨some ("NULL"), some (0 : Int)⟩)], 1⟩ ∧
    some (5 : Int) ≠ some (0 : Int) := by decide

/-- C5 amended: for a lease with a positive counter, a successful
EvictLease writes owner NULL and writes back the lease's own counter,
which the counter precondition forces to equal the stored counter, so the
stored counter is unchanged; the next successful take then sets the stored
counter to counter + 1 (at counter 0 a successful evict can instead
overwrite a different stored counter). -/
theorem evict_preserves_counter_then_take_increments {α : Type} (w : String)
    (l : Lease α) (st : Store) (q : Record)
    (hlook : lookupA l.Key st = some q)
    (h0 : 0 < l.Counter)
    (hhi : l.Counter < 2 ^ 63 - 1)
    (hok : (EvictLease l [] st).err = none) :
    q.counter = some l.Counter ∧
    EvictLease l [] st = ⟨none, { l with Owner := "NULL" },
      setAssoc l.Key ⟨some ("NULL"), some l.Counter⟩ st, 1⟩ ∧
    lookupA l.Key (EvictLease l [] st).store = some ⟨some ("NULL"), some l.Counter⟩ ∧
    (TakeLease w (EvictLease l [] st).lease [] (EvictLease l [] st).store).err = none ∧
    lookupA l.Key (TakeLease w (EvictLease l [] st).lease []
        (EvictLease l [] st).store).store = some ⟨some w, some (l.Counter + 1)⟩ := by
  by_cases hc : evalCondOpt (lookupA l.Key st) (buildCond l) = true
  · have hq : q.counter = some l.Counter := by
      rw [hlook] at hc
      exact evalCond_pos_true l q h0 hc
    have hu := updateLease_nil_of_true { l with Owner := "NULL" } l st (by simpa using hc)
    have hev : EvictLease l [] st = ⟨none, { l with Owner := "NULL" },
        setAssoc l.Key ⟨some ("NULL"), some l.Counter⟩ st, 1⟩ := by
      simp [EvictLease, hu]
    have hstore : lookupA l.Key (EvictLease l [] st).store
        = some ⟨some ("NULL"), some l.Counter⟩ := by
      rw [hev]
      exact lookupA_setAssoc l.Key ⟨some ("NULL"), some l.Counter⟩ st
    have hw : wrap64 (l.Counter + 1) = l.Counter + 1 := by
      apply wrap64_eq
      · have e1 : (2 : Int) ^ 63 = 9223372036854775808 := by norm_num
        rw [e1]
        omega
      · have e1 : (2 : Int) ^ 63 = 9223372036854775808 := by norm_num
        rw [e1]
        rw [e1] at hhi
        omega
    have hl2 : (EvictLease l [] st).lease = { l with Owner := "NULL" } := by rw [hev]
    have hcond2 : evalCondOpt
        (lookupA ({ l with Owner := "NULL" } : Lease α).Key (EvictLease l [] st).store)
        (buildCond ({ l with Owner := "NULL" } : Lease α)) = true := by
      have hb : buildCond ({ l with Owner := "NULL" } : Lease α)
          = some (CondExpr.and (CondExpr.counterEq l.Counter)
              (CondExpr.ownerEq ("NULL"))) := by
        simp [buildCond, h0]
      simp only [Lease.Key] at hstore ⊢
      rw [hstore, hb]
      simp [evalCondOpt, evalCond]
    have hu2 := updateLease_nil_of_true
      { ({ l with Owner := "NULL" } : Lease α) with
          Counter := wrap64 (({ l with Owner := "NULL" } : Lease α).Counter + 1),
          Owner := w }
      ({ l with Owner := "NULL" } : Lease α) (EvictLease l [] st).store
      (by simpa using hcond2)
    refine ⟨hq, hev, hstore, ?_, ?_⟩
    · rw [hl2]
      simp [TakeLease, hu2]
    · rw [hl2]
      simp only [TakeLease, hu2]
      simp [hw, lookupA_setAssoc]
  · exfalso
    have hcf : evalCondOpt (lookupA l.Key st) (buildCond l) = false := by
      simpa using hc
    have hu := updateLease_nil_of_false { l with Owner := "NULL" } l st (by simpa using hcf)
    rw [show (EvictLease l [] st).err = some StoreErr.conditionalCheckFailed by
      simp [EvictLease, hu]] at hok
    exact Option.noConfusion hok

/-- C5 witness: the amended statement at a concrete held lease (owner w1,
counter 5) and matching store. -/
theorem evict_preserves_counter_then_take_increments_w :
    (⟨some ("w1"), some (5 : Int)⟩ : Record).counter
      = some (⟨"A", "w1", 5, 0, "", none⟩ : Lease Unit).Counter ∧
    EvictLease (⟨"A", "w1", 5, 0, "", none⟩ : Lease Unit) []
        [("A", ⟨some ("w1"), some (5 : Int)⟩)]
      = ⟨none, { (⟨"A", "w1", 5, 0, "", none⟩ : Lease Unit) with Owner := "NULL" },
          setAssoc (⟨"A", "w1", 5, 0, "", none⟩ : Lease Unit).Key
            ⟨some ("NULL"), some (⟨"A", "w1", 5, 0, "", none⟩ : Lease Unit).Counter⟩
            [("A", ⟨some ("w1"), some (5 : Int)⟩)], 1⟩ ∧
    lookupA (⟨"A", "w1", 5, 0, "", none⟩ : Lease Unit).Key
        (EvictLease (⟨"A", "w1", 5, 0, "", none⟩ : Lease Unit) []
          [("A", ⟨some ("w1"), some (5 : Int)⟩)]).store
      = some ⟨some ("NULL"), some (⟨"A", "w1", 5, 0, "", none⟩ : Lease Unit).Counter⟩ ∧
    (TakeLease "w2" (EvictLease (⟨"A", "w1", 5, 0, "", none⟩ : Lease Unit) []
          [("A", ⟨some ("w1"), some (5 : Int)⟩)]).lease []
        (EvictLease (⟨"A", "w1", 5, 0, "", none⟩ : Lease Unit) []
          [("A", ⟨some ("w1"), some (5 : Int)⟩)]).store).err = none ∧
    lookupA (⟨"A", "w1", 5, 0, "", none⟩ : Lease Unit).Key
        (TakeLease "w2" (EvictLease (⟨"A", "w1", 5, 0, "", none⟩ : Lease Unit) []
            [("A", ⟨some ("w1"), some (5 : Int)⟩)]).lease []
          (EvictLease (⟨"A", "w1", 5, 0, "", none⟩ : Lease Unit) []
            [("A", ⟨some ("w1"), some (5 : Int)⟩)]).store).store
      = some ⟨some ("w2"), some ((⟨"A", "w1", 5, 0, "", none⟩ : Lease Unit).Counter + 1)⟩ :=
  evict_preserves_counter_then_take_increments "w2" ⟨"A", "w1", 5, 0, "", none⟩
    [("A", ⟨some ("w1"), some (5 : Int)⟩)] ⟨some ("w1"), some (5 : Int)⟩
    (by decide) (by decide) (by norm_num) (by decide)

/-- C6: absent transient faults, the conditional delete succeeds exactly
when the record for the lease's key is absent, or the stored owner and
counter both match the lease's; on success the record is removed; on a
mismatch it returns a conditional-check failure and the table is
unchanged. -/
theorem deleteLease_cond_spec {α : Type} (l : Lease α) (st : Store) :
    ((DeleteLease l [] st).1 = none ↔
      (match lookupA l.Key st with
       | none => True
       | some q => q.owner = some l.Owner ∧ q.counter = some l.Counter)) ∧
    ((DeleteLease l [] st).1 = none →
      DeleteLease l [] st = (none, removeA l.Key st, 1)) ∧
    ((DeleteLease l [] st).1 ≠ none →
      DeleteLease l [] st = (some StoreErr.conditionalCheckFailed, st, 2)) := by
  by_cases hd : deleteCond l (lookupA l.Key st) = true
  · have he := deleteLease_nil_of_true l st hd
    refine ⟨?_, ?_, ?_⟩
    · rw [he]
      simp [(deleteCond_iff l (lookupA l.Key st)).mp hd]
    · intro _
      exact he
    · intro hne
      exact absurd (by rw [he]) hne
  · have hdf : deleteCond l (lookupA l.Key st) = false := by simpa using hd
    have he := deleteLease_nil_of_false l st hdf
    have hnp : ¬ (match lookupA l.Key st with
        | none => True
        | some q => q.owner = some l.Owner ∧ q.counter = some l.Counter) := by
      intro hp
      rw [(deleteCond_iff l (lookupA l.Key st)).mpr hp] at hdf
      exact Bool.noConfusion hdf
    refine ⟨?_, ?_, ?_⟩
    · rw [he]
      simp [hnp]
    · intro hn
      rw [he] at hn
      exact absurd hn (by simp)
    · intro _
      exact he

/-- The update retry loop never makes more calls than its fuel. -/
theorem updateLoop_calls_le {α : Type} (u c : Lease α) :
    ∀ (n : Nat) (faults : List Bool) (st : Store) (last : Option StoreErr),
      (updateLoop u c n faults st last).2.2 ≤ n := by
  intro n
  induction n with
  | zero => intro faults st last; simp [updateLoop]
  | succ m ih =>
    intro faults st last
    by_cases hf : faults.headD false = true
    · simp only [updateLoop, hf, if_true]
      exact Nat.succ_le_succ (ih _ _ _)
    · simp only [updateLoop, hf, if_false, Bool.false_eq_true]
      rcases hup : updateItem u c st with ⟨e, st1⟩
      cases e with
      | none => simp [hup]
      | some e0 =>
        simp only [hup]
        exact Nat.succ_le_succ (ih _ _ _)

/-- The delete retry loop never makes more calls than its fuel. -/
theorem deleteLoop_calls_le {α : Type} (l : Lease α) :
    ∀ (n : Nat) (faults : List Bool) (st : Store) (last : Option StoreErr),
      (deleteLoop l n faults st last).2.2 ≤ n := by
  intro n
  induction n with
  | zero => intro faults st last; simp [deleteLoop]
  | succ m ih =>
    intro faults st last
    by_cases hf : faults.headD false = true
    · simp only [deleteLoop, hf, if_true]
      exact Nat.succ_le_succ (ih _ _ _)
    · simp only [deleteLoop, hf, if_false, Bool.false_eq_true]
      rcases hdel : deleteItem l st with ⟨e, st1⟩
      cases e with
      | none => simp [hdel]
      | some e0 =>
        simp only [hdel]
        exact Nat.succ_le_succ (ih _ _ _)

/-- The scan retry loop never makes more calls than its fuel. -/
theorem listLoop_calls_le (α : Type) (t : Nat) :
    ∀ (n : Nat) (faults : List Bool) (st : Store) (last : Option StoreErr),
      (listLoop α t n faults st last).2.2 ≤ n := by
  intro n
  induction n with
  | zero => intro faults st last; simp [listLoop]
  | succ m ih =>
    intro faults st last
    by_cases hf : faults.headD false = true
    · simp only [listLoop, hf, if_true]
      exact Nat.succ_le_succ (ih _ _ _)
    · simp only [listLoop, hf, if_false, Bool.false_eq_true]
      exact Nat.le_add_left 1 m

/-- The create-table retry loop never makes more calls than its fuel. -/
theorem createTableLoop_calls_le :
    ∀ (n : Nat) (replies : List TblReply) (last : Option StoreErr),
      (createTableLoop n replies last).2 ≤ n := by
  intro n
  induction n with
  | zero => intro replies last; simp [createTableLoop]
  | succ m ih =>
    intro replies last
    rcases hr : replies.headD TblReply.ok with _ | _ | _ <;>
      simp only [createTableLoop, hr]
    · exact Nat.le_add_left 1 m
    · exact Nat.le_add_left 1 m
    · exact Nat.succ_le_succ (ih _ _)

/-- C7 counterexample: `CreateLease` hit by a single transient fault
returns the transient error after exactly one physical call, although a
clean retry was available (the same call with no fault succeeds): the
create operation performs no retries at all, let alone 3 attempts. -/
theorem createLease_no_retry_cex :
    CreateLease (NewLease ("A") : Lease Unit) [true, false] []
      = (some StoreErr.transient, [], 1) ∧
    CreateLease (NewLease ("A") : Lease Unit) [] []
      = (none, [("A", ⟨none, none⟩)], 1) := by decide

/-- C7 amended: `CreateLeaseTable` and `ListLeases` make at most 3 store
calls, the update loop behind renew/take/evict and `DeleteLease` at most
2, retrying transient errors up to those caps (an all-transient run makes
exactly the capped number of calls, and a transient reply followed by a
clean one is recovered from); `CreateLease`, however, always makes exactly
one call and never retries. -/
theorem retry_caps {α : Type} (u c l : Lease α) (t : Nat) (faults : List Bool)
    (replies : List TblReply) (st : Store) :
    (CreateLeaseTable replies).2 ≤ maxCreateRetries ∧
    (ListLeases α t faults st).2.2 ≤ maxScanRetries ∧
    (updateLease u c faults st).2.2 ≤ maxUpdateRetries ∧
    (DeleteLease l faults st).2.2 ≤ maxDeleteRetries ∧
    (CreateLease l faults st).2.2 = 1 ∧
    CreateLeaseTable [TblReply.transientErr, TblReply.transientErr, TblReply.transientErr]
      = (some StoreErr.transient, 3) ∧
    ListLeases α t [true, true, true] st = (some StoreErr.transient, [], 3) ∧
    updateLease u c [true, true] st = (some StoreErr.transient, st, 2) ∧
    DeleteLease l [true, true] st = (some StoreErr.transient, st, 2) ∧
    CreateLeaseTable [TblReply.transientErr, TblReply.ok] = (none, 2) := by
  refine ⟨createTableLoop_calls_le _ _ _, listLoop_calls_le α t _ _ _ _,
    updateLoop_calls_le u c _ _ _ _, deleteLoop_calls_le l _ _ _ _,
    ?_, by decide, ?_, ?_, ?_, by decide⟩
  · simp only [CreateLease]
    split <;> rfl
  · simp [ListLeases, maxScanRetries, listLoop]
  · simp [updateLease, maxUpdateRetries, updateLoop]
  · simp [DeleteLease, maxDeleteRetries, deleteLoop]

/-- C8: absent transient faults, `ListLeases` succeeds on the first call
and returns every stored record unmarshalled into a Lease, each one's
`lastRenewal` stamped to the read time `t`. -/
theorem listLeases_returns_all_stamped (α : Type) (t : Nat) (st : Store) :
    ListLeases α t [] st = (none, st.map (unmarshalItem α t), 1) ∧
    (ListLeases α t [] st).2.1.map Lease.lastRenewal = List.replicate st.length t := by
  have h1 : ListLeases α t [] st = (none, st.map (unmarshalItem α t), 1) := by
    simp [ListLeases, maxScanRetries, listLoop]
  refine ⟨h1, ?_⟩
  rw [h1]
  clear h1
  induction st with
  | nil => simp
  | cons p rest ih => simp [unmarshalItem, List.replicate_succ, ih]

/-- C8 witness: the statement at time 7 over a two-item table. -/
theorem listLeases_returns_all_stamped_w :
    ListLeases Unit 7 [] [("A", ⟨some ("w1"), some (5 : Int)⟩), ("B", ⟨none, none⟩)]
      = (none, List.map (unmarshalItem Unit 7)
          [("A", ⟨some ("w1"), some (5 : Int)⟩), ("B", ⟨none, none⟩)], 1) ∧
    (ListLeases Unit 7 []
        [("A", ⟨some ("w1"), some (5 : Int)⟩), ("B", ⟨none, none⟩)]).2.1.map
      Lease.lastRenewal
      = List.replicate
          ([("A", (⟨some ("w1"), some (5 : Int)⟩ : Record)), ("B", ⟨none, none⟩)]).length 7 :=
  listLeases_returns_all_stamped Unit 7
    [("A", ⟨some ("w1"), some (5 : Int)⟩), ("B", ⟨none, none⟩)]

/-- C9: setting an extra field on any Lease and reading it back yields the
value together with the present flag. -/
theorem set_get_roundtrip {α : Type} (l : Lease α) (k : String) (v : α) :
    (l.Set k v).Get k = (some v, true) := by
  cases hm : l.extrafields with
  | none => simp [Lease.Set, Lease.Get, hm, lookupA]
  | some m => simp [Lease.Set, Lease.Get, hm, lookupA_setAssoc]

/-- C9 witness: the statement at a fresh lease and a numeric value. -/
theorem set_get_roundtrip_w :
    ((NewLease ("A") : Lease Nat).Set "x" 9).Get "x" = (some 9, true) :=
  set_get_roundtrip (NewLease ("A")) "x" 9

/-- C10: a successful RenewLease rewrites only the passed-in lease's
Counter, to Counter + 1; a successful TakeLease rewrites only its Counter
(to Counter + 1) and Owner (to this worker's id); a successful EvictLease
rewrites only its Owner, to NULL; Key, lastRenewal, concurrencyToken and
extrafields are untouched in all three (the counter bounds keep the Go
int increment from wrapping). -/
theorem successful_ops_frame {α : Type} (w : String) (l : Lease α) (faults : List Bool)
    (st : Store)
    (h1 : -(2 ^ 63) ≤ l.Counter) (h2 : l.Counter < 2 ^ 63 - 1)
    (hr : (RenewLease l faults st).err = none)
    (ht : (TakeLease w l faults st).err = none)
    (he : (EvictLease l faults st).err = none) :
    (RenewLease l faults st).lease = { l with Counter := l.Counter + 1 } ∧
    (TakeLease w l faults st).lease = { l with Owner := w, Counter := l.Counter + 1 } ∧
    (EvictLease l faults st).lease = { l with Owner := "NULL" } := by
  have hw : wrap64 (l.Counter + 1) = l.Counter + 1 := by
    apply wrap64_eq
    · have e1 : (2 : Int) ^ 63 = 9223372036854775808 := by norm_num
      rw [e1]
      rw [e1] at h1
      omega
    · have e1 : (2 : Int) ^ 63 = 9223372036854775808 := by norm_num
      rw [e1]
      rw [e1] at h2
      omega
  refine ⟨?_, ?_, ?_⟩
  · rcases hu : updateLease { l with Counter := wrap64 (l.Counter + 1) } l faults st
      with ⟨e, st1, n⟩
    cases e with
    | none =>
      rw [hw] at hu
      simp [RenewLease, hw, hu]
    | some e0 =>
      rw [show (RenewLease l faults st).err = some e0 by simp [RenewLease, hu]] at hr
      exact absurd hr (by simp)
  · rcases hu : updateLease { l with Counter := wrap64 (l.Counter + 1), Owner := w } l
      faults st with ⟨e, st1, n⟩
    cases e with
    | none =>
      rw [hw] at hu
      simp [TakeLease, hw, hu]
    | some e0 =>
      rw [show (TakeLease w l faults st).err = some e0 by simp [TakeLease, hu]] at ht
      exact absurd ht (by simp)
  · rcases hu : updateLease { l with Owner := "NULL" } l faults st with ⟨e, st1, n⟩
    cases e with
    | none => simp [EvictLease, hu]
    | some e0 =>
      rw [show (EvictLease l faults st).err = some e0 by simp [EvictLease, hu]] at he
      exact absurd he (by simp)

/-- C10 witness: the statement at a fresh lease over the empty table,
where renew, take and evict all succeed unconditionally. -/
theorem successful_ops_frame_w :
    (RenewLease (NewLease ("A") : Lease Unit) [] []).lease
      = { (NewLease ("A") : Lease Unit) with
            Counter := (NewLease ("A") : Lease Unit).Counter + 1 } ∧
    (TakeLease "w1" (NewLease ("A") : Lease Unit) [] []).lease
      = { (NewLease ("A") : Lease Unit) with
            Owner := "w1"
            Counter := (NewLease ("A") : Lease Unit).Counter + 1 } ∧
    (EvictLease (NewLease ("A") : Lease Unit) [] []).lease
      = { (NewLease ("A") : Lease Unit) with Owner := "NULL" } :=
  successful_ops_frame "w1" (NewLease ("A")) [] [] (by decide) (by decide)
    (by decide) (by decide) (by decide)

/-- C6 witness: the delete specification at a concrete matching lease and
one-item store. -/
theorem deleteLease_cond_spec_w :
    ((DeleteLease (⟨"A", "w1", 5, 0, "", none⟩ : Lease Unit) []
        [("A", ⟨some ("w1"), some (5 : Int)⟩)]).1 = none ↔
      (match lookupA (⟨"A", "w1", 5, 0, "", none⟩ : Lease Unit).Key
          [("A", (⟨some ("w1"), some (5 : Int)⟩ : Record))] with
       | none => True
       | some q => q.owner = some (⟨"A", "w1", 5, 0, "", none⟩ : Lease Unit).Owner ∧
           q.counter = some (⟨"A", "w1", 5, 0, "", none⟩ : Lease Unit).Counter)) ∧
    ((DeleteLease (⟨"A", "w1", 5, 0, "", none⟩ : Lease Unit) []
        [("A", ⟨some ("w1"), some (5 : Int)⟩)]).1 = none →
      DeleteLease (⟨"A", "w1", 5, 0, "", none⟩ : Lease Unit) []
          [("A", ⟨some ("w1"), some (5 : Int)⟩)]
        = (none, removeA (⟨"A", "w1", 5, 0, "", none⟩ : Lease Unit).Key
            [("A", ⟨some ("w1"), some (5 : Int)⟩)], 1)) ∧
    ((DeleteLease (⟨"A", "w1", 5, 0, "", none⟩ : Lease Unit) []
        [("A", ⟨some ("w1"), some (5 : Int)⟩)]).1 ≠ none →
      DeleteLease (⟨"A", "w1", 5, 0, "", none⟩ : Lease Unit) []
          [("A", ⟨some ("w1"), some (5 : Int)⟩)]
        = (some StoreErr.conditionalCheckFailed,
            [("A", ⟨some ("w1"), some (5 : Int)⟩)], 2)) :=
  deleteLease_cond_spec ⟨"A", "w1", 5, 0, "", none⟩
    [("A", ⟨some ("w1"), some (5 : Int)⟩)]
